import Mathlib

/-!
Shallow embedding of `mace/core/operator.cc` (MACE operator registration and
dispatch engine): the operator registry keyed by (operator type, device, data
type), the default device-placement policy, the construct-context memory/type
negotiation, and `Operation::Init` tensor binding.

Fatal `MACE_CHECK` / `LOG(FATAL)` conditions are modelled as `Option.none`
(or `Except.error msg` where a claim mentions the diagnostic text).
-/

namespace Mace

/-- Device backends, `enum DeviceType { CPU = 0, GPU = 2, HEXAGON = 3 }`
(from the MACE public types; only CPU and GPU are named in `operator.cc`). -/
inductive DeviceType where
  | CPU
  | GPU
  | HEXAGON
deriving DecidableEq, Repr, Fintype

/-- The numeric value of a `DeviceType` enum constant. -/
def DeviceType.toInt : DeviceType → Int
  | .CPU => 0
  | .GPU => 2
  | .HEXAGON => 3

/-- Model of `ss << device_type_` in `OpKeyBuilder::Build` streams the enum's
underlying integer value. -/
def DeviceType.stream : DeviceType → String
  | .CPU => "0"
  | .GPU => "2"
  | .HEXAGON => "3"

/-- Tensor element types, `enum DataType` from the MACE proto schema:
`DT_INVALID = 0, DT_FLOAT = 1, DT_UINT8 = 2, DT_HALF = 3, DT_INT32 = 4`. -/
inductive DataType where
  | DT_INVALID
  | DT_FLOAT
  | DT_UINT8
  | DT_HALF
  | DT_INT32
deriving DecidableEq, Repr, Fintype

/-- Numeric value of a `DataType` enum constant. -/
def DataType.toInt : DataType → Int
  | .DT_INVALID => 0
  | .DT_FLOAT => 1
  | .DT_UINT8 => 2
  | .DT_HALF => 3
  | .DT_INT32 => 4

/-- Model of `static_cast<DataType>(i)`: integers outside the enum range have no
defined enum meaning; they are mapped to `DT_INVALID`. -/
def DataType.ofInt (i : Int) : DataType :=
  if i = 1 then .DT_FLOAT
  else if i = 2 then .DT_UINT8
  else if i = 3 then .DT_HALF
  else if i = 4 then .DT_INT32
  else .DT_INVALID

/-- Modelled from the spec: `DataTypeToString` (defined in
`mace/core/types.cc`, which is not part of the given source) returns "the
human-readable name of its bound data type", which "must itself serialize
deterministically". We use the proto constant names. -/
def DataTypeToString : DataType → String
  | .DT_INVALID => "DT_INVALID"
  | .DT_FLOAT => "DT_FLOAT"
  | .DT_UINT8 => "DT_UINT8"
  | .DT_HALF => "DT_HALF"
  | .DT_INT32 => "DT_INT32"

/-- Memory space classification of a tensor's backing storage,
`enum MemoryType { CPU_BUFFER, GPU_BUFFER, GPU_IMAGE }` from the MACE
public types. -/
inductive MemoryType where
  | CPU_BUFFER
  | GPU_BUFFER
  | GPU_IMAGE
deriving DecidableEq, Repr

/-- One named attribute of an `OperatorDef` (proto `Argument`); `operator.cc`
only reads and writes the integer payload (`arg.i()` / `set_i`). -/
structure Arg where
  name : String
  i : Int
deriving DecidableEq, Repr

/-- A configured output shape (proto `OutputShape`): a sequence of dims. -/
structure OutputShape where
  dims : List Int
deriving DecidableEq, Repr

/-- The declarative description of one operator instance (proto
`OperatorDef`): type name, instance name, ordered input/output tensor names,
optional per-output declared data types and shapes, and named attributes. -/
structure OperatorDef where
  type : String
  name : String
  input : List String
  output : List String
  output_type : List DataType
  output_shape : List OutputShape
  arg : List Arg
deriving DecidableEq, Repr

/-- Modelled from the spec: `ProtoArgHelper::GetOptionalArg<OperatorDef,int>`
(defined outside the given source) — "attribute access by string name with
typed, defaulted accessors", "absent attribute ⇒ default". Looks up the
first argument with the given name and returns its integer payload. -/
def getOptionalArgInt (d : OperatorDef) (argName : String) (dflt : Int) : Int :=
  match d.arg.find? (fun a => a.name = argName) with
  | some a => a.i
  | none => dflt

/-- The operator's primary resolved data type: attribute `"T"`, defaulting to
`DT_FLOAT`, as computed at each use site in `operator.cc`. -/
def resolvedDataType (d : OperatorDef) : DataType :=
  DataType.ofInt (getOptionalArgInt d "T" DataType.DT_FLOAT.toInt)

/-- The in-place rewrite in `OpRegistryBase::CreateOperation`: every argument
named `"T"` gets `set_i(DT_FLOAT)`. -/
def rewriteTToFloat (d : OperatorDef) : OperatorDef :=
  { d with arg := d.arg.map (fun a =>
      if a.name = "T" then { a with i := DataType.DT_FLOAT.toInt } else a) }

end Mace

namespace Mace

/-- A tensor as visible to this core: its data type and the statically
configured shape set by `SetShapeConfigured` (external interface, §6 of the
spec; the numeric payload is out of scope). -/
structure Tensor where
  dtype : DataType
  shape_configured : Option (List Int) := none
deriving DecidableEq, Repr

/-- Modelled from the spec: the workspace tensor namespace (external
collaborator, specified at its interface: `HasTensor`, `GetTensor`,
`CreateTensor`). An association list from tensor name to tensor. -/
structure Workspace where
  tensors : List (String × Tensor)
deriving DecidableEq, Repr

/-- Model of `Workspace::GetTensor(name)`: the tensor registered under `name`. -/
def Workspace.getTensor (ws : Workspace) (name : String) : Option Tensor :=
  (ws.tensors.find? (fun p => p.1 = name)).map Prod.snd

/-- Model of `Workspace::HasTensor(name)`. -/
def Workspace.hasTensor (ws : Workspace) (name : String) : Bool :=
  (ws.getTensor name).isSome

/-- Model of `Workspace::CreateTensor(name, allocator, dtype)`: registers a fresh
tensor under `name` (only called when `name` is absent). -/
def Workspace.createTensor (ws : Workspace) (name : String) (dt : DataType) :
    Workspace :=
  { tensors := ws.tensors ++ [(name, { dtype := dt })] }

/-- Model of `Tensor::SetShapeConfigured` applied to the tensor stored under `name`. -/
def Workspace.setShapeConfigured (ws : Workspace) (name : String)
    (shape : List Int) : Workspace :=
  { tensors := ws.tensors.map (fun p =>
      if p.1 = name then (p.1, { p.2 with shape_configured := some shape })
      else p) }

end Mace

namespace Mace

/-- Model of `OpConstructContext`: the per-instantiation negotiation object.
`operator_def_` starts as `nullptr` (`none`); the workspace / device /
tensor-shape-info pointers play no role in the given source's logic and are
omitted from the state. -/
structure OpConstructContext where
  operator_def : Option OperatorDef := none
  output_mem_type : MemoryType := .CPU_BUFFER
  input_mem_types : List MemoryType := []
  input_data_types : List DataType := []
deriving DecidableEq, Repr

/-- Model of `OpConstructContext::set_operator_def`: replaces the definition and
clears `input_data_types_` (and only that list). -/
def OpConstructContext.set_operator_def (ctx : OpConstructContext)
    (d : OperatorDef) : OpConstructContext :=
  { ctx with operator_def := some d, input_data_types := [] }

/-- Model of `OpConstructContext::set_output_mem_type`: `MACE_CHECK(operator_def_ !=
nullptr)`, then stores the type and clears `input_mem_types_`. -/
def OpConstructContext.set_output_mem_type (ctx : OpConstructContext)
    (t : MemoryType) : Option OpConstructContext :=
  match ctx.operator_def with
  | none => none
  | some _ =>
    some { ctx with output_mem_type := t, input_mem_types := [] }

/-- Model of `OpConstructContext::SetInputInfo`: lazily materializes both per-input
lists to the operator's input count (defaults: `output_mem_type_` and the
resolved `"T"` type), bounds-checks `idx`, then overwrites the entry.
Dereferences `operator_def_`, so a null definition is fatal. -/
def OpConstructContext.SetInputInfo (ctx : OpConstructContext) (idx : Nat)
    (memType : MemoryType) (dt : DataType) : Option OpConstructContext :=
  match ctx.operator_def with
  | none => none
  | some d =>
    let memTypes :=
      if ctx.input_mem_types.isEmpty then
        List.replicate d.input.length ctx.output_mem_type
      else ctx.input_mem_types
    let dataTypes :=
      if ctx.input_data_types.isEmpty then
        List.replicate d.input.length (resolvedDataType d)
      else ctx.input_data_types
    if idx < memTypes.length ∧ idx < dataTypes.length then
      some { ctx with
        input_mem_types := memTypes.set idx memType,
        input_data_types := dataTypes.set idx dt }
    else none

/-- Model of `OpConstructContext::GetInputMemType`: the context-wide default when the
list was never materialized (no bounds check), otherwise a bounds-checked
indexed read. -/
def OpConstructContext.GetInputMemType (ctx : OpConstructContext)
    (idx : Nat) : Option MemoryType :=
  if ctx.input_mem_types.isEmpty then some ctx.output_mem_type
  else if h : idx < ctx.input_mem_types.length then
    some (ctx.input_mem_types.get ⟨idx, h⟩)
  else none

/-- Model of `OpConstructContext::GetInputDataType`: same structure for data types;
the default is the operator's resolved `"T"` type (dereferences
`operator_def_`). -/
def OpConstructContext.GetInputDataType (ctx : OpConstructContext)
    (idx : Nat) : Option DataType :=
  if ctx.input_data_types.isEmpty then
    match ctx.operator_def with
    | none => none
    | some d => some (resolvedDataType d)
  else if h : idx < ctx.input_data_types.length then
    some (ctx.input_data_types.get ⟨idx, h⟩)
  else none

end Mace

namespace Mace

/-- Model of `OpKeyBuilder::Build` after `Device(device)` and
`TypeConstraint("T", dt)` (the only way keys are built in `operator.cc`):
op name, the device's streamed integer, then `"T" << "_" <<
DataTypeToString(dt)`. -/
def opKeyBuild (opName : String) (device : DeviceType) (dt : DataType) :
    String :=
  opName ++ device.stream ++ "T" ++ "_" ++ DataTypeToString dt

/-- The device/data-type dependent suffix of a registration key. -/
def keySuffix (device : DeviceType) (dt : DataType) : String :=
  device.stream ++ "T" ++ "_" ++ DataTypeToString dt

/-- The default `device_placer` installed by the `OpRegistrationInfo`
constructor. It is a closure over `this`, reading `this->devices` at call
time; here the current device set is passed explicitly. The guard is
`devices.count(CPU) == 1 && op->output_shape_size() == op->output_size()`;
when it holds, `op->output_shape(0)` is read — out of bounds (fatal) when
there is no configured shape. -/
def defaultDevicePlacer (devices : List DeviceType)
    (ctx : OpConstructContext) : Option (List DeviceType) :=
  match ctx.operator_def with
  | none => none
  | some op =>
    if devices.contains DeviceType.CPU
        ∧ op.output_shape.length = op.output.length then
      match op.output_shape.head? with
      | none => none
      | some s =>
        if s.dims.length ≠ 4 then some [DeviceType.CPU] else some devices
    else some devices

/-- Model of `std::set<DeviceType>` insertion: ordered by enum value, no duplicates. -/
def insertDevice (device : DeviceType) : List DeviceType → List DeviceType
  | [] => [device]
  | d :: ds =>
    if device = d then d :: ds
    else if device.toInt < d.toInt then device :: d :: ds
    else d :: insertDevice device ds

/-- Model of `OpRegistrationInfo`: the per-operator-type record. The creator
callables are external opaque values; `creators` keeps the set of keys
registered in insertion order (`std::map` membership is all `operator.cc`
ever queries about them). -/
structure OpRegistrationInfo where
  devices : List DeviceType := []
  device_placer : List DeviceType → OpConstructContext →
    Option (List DeviceType) := defaultDevicePlacer
  creators : List String := []

/-- Model of `OpRegistrationInfo::AddDevice`. -/
def OpRegistrationInfo.AddDevice (info : OpRegistrationInfo)
    (device : DeviceType) : OpRegistrationInfo :=
  { info with devices := insertDevice device info.devices }

/-- Model of `OpRegistrationInfo::Register(key, creator)`:
`MACE_CHECK(creators.count(key) == 0)`, then stores the creator. -/
def OpRegistrationInfo.RegisterKey (info : OpRegistrationInfo)
    (key : String) : Option OpRegistrationInfo :=
  if info.creators.contains key then none
  else some { info with creators := info.creators ++ [key] }

/-- Model of `OpConditionBuilder`: type name plus an optional device-placer override
(`std::function` is empty until `SetDevicePlacerFunc`). The C++ placer
signature does not see the device set, hence the plain
`OpConstructContext → Option (List DeviceType)` type here. -/
structure OpConditionBuilder where
  type : String
  placer : Option (OpConstructContext → Option (List DeviceType)) := none

/-- Model of `OpConditionBuilder::SetDevicePlacerFunc`. -/
def OpConditionBuilder.SetDevicePlacerFunc (b : OpConditionBuilder)
    (f : OpConstructContext → Option (List DeviceType)) :
    OpConditionBuilder :=
  { b with placer := some f }

/-- Model of `OpConditionBuilder::Finalize(info)`: assigns `device_placer` only when
both the target (`info != nullptr`, modelled by the `Option`) and a placer
function are present; silently a no-op otherwise. -/
def OpConditionBuilder.Finalize (b : OpConditionBuilder)
    (info : Option OpRegistrationInfo) : Option OpRegistrationInfo :=
  match info, b.placer with
  | some i, some f => some { i with device_placer := fun _ ctx => f ctx }
  | _, _ => info

/-- Model of `OpRegistryBase`: process-wide table from operator-type name to its
`OpRegistrationInfo`, kept as an association list in insertion order. -/
structure OpRegistryBase where
  registry : List (String × OpRegistrationInfo) := []

/-- Model of `registry_.count(op_type)` / `registry_.at(op_type)`. -/
def OpRegistryBase.find (reg : OpRegistryBase) (opType : String) :
    Option OpRegistrationInfo :=
  (reg.registry.find? (fun p => p.1 = opType)).map Prod.snd

/-- Model of `registry_[op_type] = info` (overwrite or insert). -/
def OpRegistryBase.store (reg : OpRegistryBase) (opType : String)
    (info : OpRegistrationInfo) : OpRegistryBase :=
  if (reg.registry.find? (fun p => p.1 = opType)).isSome then
    { registry := reg.registry.map (fun p =>
        if p.1 = opType then (p.1, info) else p) }
  else
    { registry := reg.registry ++ [(opType, info)] }

/-- Model of `OpRegistryBase::Register(op_type, device_type, dt, creator)`: create
the `OpRegistrationInfo` on first sight, record the device, build the key
and register the creator under it (fatal on key collision). -/
def OpRegistryBase.Register (reg : OpRegistryBase) (opType : String)
    (deviceType : DeviceType) (dt : DataType) : Option OpRegistryBase :=
  let reg1 :=
    if (reg.find opType).isNone then reg.store opType {} else reg
  match reg1.find opType with
  | none => none
  | some info =>
    let info1 := info.AddDevice deviceType
    let opKey := opKeyBuild opType deviceType dt
    match info1.RegisterKey opKey with
    | none => none
    | some info2 => some (reg1.store opType info2)

/-- Model of `OpRegistryBase::Register(builder)`: create the record on first sight,
then apply the builder's override. -/
def OpRegistryBase.RegisterCondition (reg : OpRegistryBase)
    (b : OpConditionBuilder) : OpRegistryBase :=
  let reg1 :=
    if (reg.find b.type).isNone then reg.store b.type {} else reg
  match b.Finalize (reg1.find b.type) with
  | none => reg1
  | some info => reg1.store b.type info

/-- Model of `OpRegistryBase::AvailableDevices`: fatal when the type was never
registered; otherwise invokes the type's current `device_placer`. -/
def OpRegistryBase.AvailableDevices (reg : OpRegistryBase) (opType : String)
    (ctx : OpConstructContext) : Option (List DeviceType) :=
  match reg.find opType with
  | none => none
  | some info => info.device_placer info.devices ctx

/-- Model of `OpRegistryBase::CreateOperation`: resolves the `"T"` type (default
`DT_FLOAT`); on CPU with `DT_HALF`, rewrites every `"T"` argument of the
shared definition in place to `DT_FLOAT` and dispatches with `DT_FLOAT`;
fatal when the type or the built key is unregistered. The observable
result is the updated context (the factory receives it) and the dispatch
key selecting the creator. -/
def OpRegistryBase.CreateOperation (reg : OpRegistryBase)
    (ctx : OpConstructContext) (deviceType : DeviceType) :
    Option (OpConstructContext × String) :=
  match ctx.operator_def with
  | none => none
  | some d =>
    let dtype := resolvedDataType d
    let d1 :=
      if deviceType = DeviceType.CPU ∧ dtype = DataType.DT_HALF then
        rewriteTToFloat d
      else d
    let dtype1 :=
      if deviceType = DeviceType.CPU ∧ dtype = DataType.DT_HALF then
        DataType.DT_FLOAT
      else dtype
    let ctx1 := { ctx with operator_def := some d1 }
    match reg.find d1.type with
    | none => none
    | some info =>
      let key := opKeyBuild d1.type deviceType dtype1
      if info.creators.contains key then some (ctx1, key)
      else none

/-- Model of `Operation`: the bound operator instance. `inputs_` holds the resolved
input tensors in declared order; `outputs_` holds pointers into the
workspace, identified here by the declared output names. -/
structure Operation where
  operator_def : OperatorDef
  inputs : List Tensor := []
  outputs : List String := []
deriving Repr

/-- The input-binding loop of `Operation::Init`: look up every declared
input name; a missing tensor is the fatal check
`MACE_CHECK(tensor != nullptr, "op ", type, ": Encountered a non-existing
input tensor: ", input_str)`. -/
def bindInputs (ty : String) (ws : Workspace) :
    List String → Except String (List Tensor)
  | [] => .ok []
  | n :: rest =>
    match ws.getTensor n with
    | none =>
      .error ("op " ++ ty ++ ": Encountered a non-existing input tensor: "
        ++ n)
    | some t =>
      match bindInputs ty ws rest with
      | .error e => .error e
      | .ok ts => .ok (t :: ts)

/-- The per-output declared type when present at index `i`, else the
operator's primary resolved type — the `output_type` selection inside
`Operation::Init`. -/
def resolveOutputType (d : OperatorDef) (i : Nat) : DataType :=
  match d.output_type.get? i with
  | some t => t
  | none => resolvedDataType d

/-- One iteration of the output loop of `Operation::Init`, before the shape
configuration step: reuse the existing tensor, or check output-type-count
consistency and create a tensor of the resolved type. -/
def bindOutput (d : OperatorDef) (ws : Workspace) (i : Nat) (name : String) :
    Except String Workspace :=
  if ws.hasTensor name then .ok ws
  else if d.output_type.length = 0
      ∨ d.output.length = d.output_type.length then
    .ok (ws.createTensor name (resolveOutputType d i))
  else .error "operator output size != operator output type size"

/-- The shape-configuration step: when output `i` carries a configured
shape, apply it to the workspace tensor under `name`. -/
def applyShapeConfig (d : OperatorDef) (ws : Workspace) (i : Nat)
    (name : String) : Workspace :=
  match d.output_shape.get? i with
  | some s => ws.setShapeConfigured name s.dims
  | none => ws

/-- The output loop of `Operation::Init`, from index `i` over the remaining
declared output names. -/
def bindOutputs (d : OperatorDef) : Workspace → Nat → List String →
    Except String (Workspace × List String)
  | ws, _, [] => .ok (ws, [])
  | ws, i, name :: rest =>
    match bindOutput d ws i name with
    | .error e => .error e
    | .ok ws1 =>
      let ws2 := applyShapeConfig d ws1 i name
      match bindOutputs d ws2 (i + 1) rest with
      | .error e => .error e
      | .ok (ws3, outs) => .ok (ws3, name :: outs)

/-- Model of `Operation::Init(context)`: bind all inputs, then process every declared
output; returns the updated workspace and the bound operation. -/
def Operation.Init (op : Operation) (ws : Workspace) :
    Except String (Workspace × Operation) :=
  match bindInputs op.operator_def.type ws op.operator_def.input with
  | .error e => .error e
  | .ok ins =>
    match bindOutputs op.operator_def ws 0 op.operator_def.output with
    | .error e => .error e
    | .ok (ws1, outs) =>
      .ok (ws1, { op with inputs := ins, outputs := outs })

/-- The `OpConstructContext` mutators, as a step language for stating
invariants over arbitrary call sequences. -/
inductive CtxOp where
  | setDef (d : OperatorDef)
  | setOutMem (m : MemoryType)
  | setInput (idx : Nat) (m : MemoryType) (dt : DataType)

/-- One context operation (fatal checks propagate as `none`). -/
def ctxStep (ctx : OpConstructContext) : CtxOp → Option OpConstructContext
  | .setDef d => some (ctx.set_operator_def d)
  | .setOutMem m => ctx.set_output_mem_type m
  | .setInput idx m dt => ctx.SetInputInfo idx m dt

/-- A sequence of context operations, run left to right. -/
def ctxRun (ops : List CtxOp) (ctx : OpConstructContext) :
    Option OpConstructContext :=
  match ops with
  | [] => some ctx
  | o :: rest =>
    match ctxStep ctx o with
    | none => none
    | some ctx1 => ctxRun rest ctx1

/-! ## Helper lemmas -/

set_option maxHeartbeats 1000000 in
lemma keySuffix_data_suffix_inj : ∀ d1 dt1 d2 dt2,
    ((keySuffix d1 dt1).data <:+ (keySuffix d2 dt2).data) →
    d1 = d2 ∧ dt1 = dt2 := by decide

lemma opKeyBuild_data (t : String) (d : DeviceType) (dt : DataType) :
    (opKeyBuild t d dt).data = t.data ++ (keySuffix d dt).data := by
  simp [opKeyBuild, keySuffix, List.append_assoc]

lemma opKeyBuild_inj {t1 t2 : String} {d1 d2 : DeviceType}
    {dt1 dt2 : DataType} (h : opKeyBuild t1 d1 dt1 = opKeyBuild t2 d2 dt2) :
    t1 = t2 ∧ d1 = d2 ∧ dt1 = dt2 := by
  have hd : t1.data ++ (keySuffix d1 dt1).data
      = t2.data ++ (keySuffix d2 dt2).data := by
    rw [← opKeyBuild_data, ← opKeyBuild_data, h]
  have h1 : (keySuffix d1 dt1).data <:+ t2.data ++ (keySuffix d2 dt2).data :=
    hd ▸ ⟨t1.data, rfl⟩
  have h2 : (keySuffix d2 dt2).data <:+ t2.data ++ (keySuffix d2 dt2).data :=
    ⟨t2.data, rfl⟩
  have hpair : d1 = d2 ∧ dt1 = dt2 := by
    rcases List.suffix_or_suffix_of_suffix h1 h2 with hc | hc
    · exact keySuffix_data_suffix_inj d1 dt1 d2 dt2 hc
    · exact (keySuffix_data_suffix_inj d2 dt2 d1 dt1 hc).imp Eq.symm Eq.symm
  obtain ⟨hdev, hdt⟩ := hpair
  subst hdev; subst hdt
  exact ⟨String.ext (List.append_cancel_right hd), rfl, rfl⟩

lemma find?_update_self {I : Type} (l : List (String × I)) (ty : String)
    (info : I) (h : (l.find? (fun p => p.1 = ty)).isSome = true) :
    (l.map (fun p => if p.1 = ty then (p.1, info) else p)).find?
      (fun p => p.1 = ty) = some (ty, info) := by
  induction l with
  | nil => simp at h
  | cons a l ih =>
    by_cases ha : a.1 = ty
    · subst ha
      simp [List.find?_cons]
    · simp only [List.map_cons, if_neg ha]
      rw [List.find?_cons_of_neg _ (by simpa using ha)]
      apply ih
      rw [List.find?_cons_of_neg _ (by simpa using ha)] at h
      exact h

lemma find_store_self (reg : OpRegistryBase) (ty : String)
    (info : OpRegistrationInfo) :
    (reg.store ty info).find ty = some info := by
  unfold OpRegistryBase.store OpRegistryBase.find
  by_cases h : (reg.registry.find? (fun p => p.1 = ty)).isSome
  · rw [if_pos h]
    simp [find?_update_self reg.registry ty info h]
  · rw [if_neg h]
    have hn : reg.registry.find? (fun p => p.1 = ty) = none := by
      cases hf : reg.registry.find? (fun p => p.1 = ty) with
      | none => rfl
      | some v => rw [hf] at h; simp at h
    simp [List.find?_append, hn]

/-! ## Claims -/

/-- C3: key determinism and injectivity — two registration keys built by
`OpKeyBuilder::Build` are byte-identical if and only if the (operator type
name, device, data type) triples agree componentwise; in particular the
same triple always rebuilds the same key and distinct triples yield
distinct keys. -/
theorem opKeyBuild_deterministic_and_injective
    (t1 t2 : String) (d1 d2 : DeviceType) (dt1 dt2 : DataType) :
    opKeyBuild t1 d1 dt1 = opKeyBuild t2 d2 dt2 ↔
      (t1 = t2 ∧ d1 = d2 ∧ dt1 = dt2) := by
  constructor
  · exact opKeyBuild_inj
  · rintro ⟨rfl, rfl, rfl⟩; rfl



/-- C1: for an operator type registered with devices {CPU, GPU} that keeps
the default placement policy, `AvailableDevices` on a context whose
definition has exactly one declared output returns {CPU} when the single
configured shape has rank 3, {CPU, GPU} when it has rank 4, and {CPU, GPU}
when there are zero configured shapes. -/
theorem availableDevices_default_placement_rule
    (reg : OpRegistryBase) (ty : String) (info : OpRegistrationInfo)
    (hfind : reg.find ty = some info)
    (hdev : info.devices = [DeviceType.CPU, DeviceType.GPU])
    (hplacer : info.device_placer = defaultDevicePlacer)
    (ctx : OpConstructContext) (d : OperatorDef)
    (hctx : ctx.operator_def = some d) (hout : d.output.length = 1) :
    (∀ s, d.output_shape = [s] → s.dims.length = 3 →
      reg.AvailableDevices ty ctx = some [DeviceType.CPU]) ∧
    (∀ s, d.output_shape = [s] → s.dims.length = 4 →
      reg.AvailableDevices ty ctx
        = some [DeviceType.CPU, DeviceType.GPU]) ∧
    (d.output_shape = [] →
      reg.AvailableDevices ty ctx
        = some [DeviceType.CPU, DeviceType.GPU]) := by
  refine ⟨?_, ?_, ?_⟩
  · intro s hs hrank
    simp [OpRegistryBase.AvailableDevices, hfind, hplacer, hdev,
      defaultDevicePlacer, hctx, hs, hout, hrank]
  · intro s hs hrank
    simp [OpRegistryBase.AvailableDevices, hfind, hplacer, hdev,
      defaultDevicePlacer, hctx, hs, hout, hrank]
  · intro hs
    simp [OpRegistryBase.AvailableDevices, hfind, hplacer, hdev,
      defaultDevicePlacer, hctx, hs, hout]

/-- A zero-output, zero-configured-shape operator definition, used to probe
the default placer's `output_shape(0)` access. -/
def zeroOutputDef : OperatorDef :=
  { type := "ZeroOut", name := "z", input := [], output := [],
    output_type := [], output_shape := [], arg := [] }

/-- C10 counterexample: on a construct context whose definition has zero
declared outputs (and zero configured shapes) while CPU is among the
registered devices, the guard `output_shape_size() == output_size()` is
satisfied by `0 == 0`, the `output_shape(0)` access is reached, and it is
OUT of bounds — the default placer faults instead of staying within
bounds. -/
theorem default_placer_zero_output_access_faults :
    defaultDevicePlacer [DeviceType.CPU, DeviceType.GPU]
      { operator_def := some zeroOutputDef } = none := by
  decide

/-- C10 (amended): whenever the registration info contains the CPU device
and the construct context's definition has zero declared outputs and zero
configured shapes, the default placer reaches the `output_shape(0)` read
and that read is out of bounds, so the placer faults. -/
theorem default_placer_zero_output_out_of_bounds
    (devices : List DeviceType) (ctx : OpConstructContext) (d : OperatorDef)
    (hd : ctx.operator_def = some d) (hout : d.output = [])
    (hshape : d.output_shape = [])
    (hcpu : DeviceType.CPU ∈ devices) :
    defaultDevicePlacer devices ctx = none := by
  simp [defaultDevicePlacer, hd, hout, hshape, hcpu]

/-- Witness for the amended C10 theorem at a concrete input. -/
theorem default_placer_zero_output_out_of_bounds_witness :
    defaultDevicePlacer [DeviceType.CPU] { operator_def := some zeroOutputDef }
      = none :=
  default_placer_zero_output_out_of_bounds [DeviceType.CPU]
    { operator_def := some zeroOutputDef } zeroOutputDef rfl rfl rfl (by decide)

/-- C9: a condition builder that supplies a custom device placer makes
`AvailableDevices` for that operator type return exactly the custom
function's result on the given context (regardless of the default rank-4
rule); a builder finalized without a placer function, or onto a null
target, leaves the placement policy unchanged. -/
theorem availableDevices_custom_placer_override
    (reg : OpRegistryBase) (ty : String)
    (f : OpConstructContext → Option (List DeviceType))
    (ctx : OpConstructContext) :
    (OpRegistryBase.AvailableDevices
      (reg.RegisterCondition
        ((OpConditionBuilder.mk ty none).SetDevicePlacerFunc f)) ty ctx
      = f ctx) ∧
    (∀ info : Option OpRegistrationInfo,
      (OpConditionBuilder.mk ty none).Finalize info = info) ∧
    (∀ b : OpConditionBuilder, b.Finalize none = none) := by
  refine ⟨?_, ?_, ?_⟩
  · show (OpRegistryBase.RegisterCondition reg _).AvailableDevices ty ctx = f ctx
    unfold OpRegistryBase.RegisterCondition
    set reg1 : OpRegistryBase :=
      if (reg.find (OpConditionBuilder.mk ty none
          |>.SetDevicePlacerFunc f).type).isNone then
        reg.store (OpConditionBuilder.mk ty none
          |>.SetDevicePlacerFunc f).type {}
      else reg with hreg1
    have hfind1 : ∃ i, reg1.find ty = some i := by
      rw [hreg1]
      cases hf : reg.find ty with
      | none =>
        simp [OpConditionBuilder.SetDevicePlacerFunc, hf]
        exact ⟨_, find_store_self reg ty {}⟩
      | some i => simp [OpConditionBuilder.SetDevicePlacerFunc, hf]
    obtain ⟨i, hi⟩ := hfind1
    simp only [OpConditionBuilder.SetDevicePlacerFunc] at hi ⊢
    simp only [OpConditionBuilder.Finalize, hi]
    rw [OpRegistryBase.AvailableDevices, find_store_self]
  · intro info
    cases info <;> rfl
  · intro b
    cases hb : b.placer <;> simp [OpConditionBuilder.Finalize]

/-- C4: with the per-input memory types never materialized,
`GetInputMemType` reports the context-wide `output_mem_type` for every
index, in and out of range; after one `SetInputInfo(2, M2, D2)` call on a
4-input operator, index 2 reports M2, index 0 reports the default, and
index 5 is a fatal out-of-bounds violation. -/
theorem getInputMemType_default_propagation
    (ctx : OpConstructContext) (M2 : MemoryType) (dt2 : DataType)
    (d : OperatorDef) (hd : ctx.operator_def = some d)
    (hlen : d.input.length = 4)
    (hmem : ctx.input_mem_types = [])
    (hdata : ctx.input_data_types = []) :
    (∀ i, ctx.GetInputMemType i = some ctx.output_mem_type) ∧
    (∃ ctx1, ctx.SetInputInfo 2 M2 dt2 = some ctx1 ∧
      ctx1.GetInputMemType 2 = some M2 ∧
      ctx1.GetInputMemType 0 = some ctx.output_mem_type ∧
      ctx1.GetInputMemType 5 = none) := by
  constructor
  · intro i
    simp [OpConstructContext.GetInputMemType, hmem]
  · have hset : ctx.SetInputInfo 2 M2 dt2 = some { ctx with
        input_mem_types := (List.replicate 4 ctx.output_mem_type).set 2 M2,
        input_data_types :=
          (List.replicate 4 (resolvedDataType d)).set 2 dt2 } := by
      simp [OpConstructContext.SetInputInfo, hd, hmem, hdata, hlen]
    refine ⟨_, hset, ?_, ?_, ?_⟩
    · simp [OpConstructContext.GetInputMemType, List.replicate_succ]
    · simp [OpConstructContext.GetInputMemType, List.replicate_succ]
    · simp [OpConstructContext.GetInputMemType, List.replicate_succ]

/-- A 4-input operator definition for exercising the negotiation API. -/
def fourInputDef : OperatorDef :=
  { type := "Eltwise", name := "e", input := ["a", "b", "c", "d"],
    output := ["o"], output_type := [], output_shape := [], arg := [] }

/-- Witness for C4 at a concrete context. -/
theorem getInputMemType_default_propagation_witness :
    (∀ i, OpConstructContext.GetInputMemType
        { operator_def := some fourInputDef,
          output_mem_type := MemoryType.GPU_IMAGE } i
      = some MemoryType.GPU_IMAGE) ∧
    (∃ ctx1, OpConstructContext.SetInputInfo
        { operator_def := some fourInputDef,
          output_mem_type := MemoryType.GPU_IMAGE }
        2 MemoryType.GPU_BUFFER DataType.DT_HALF = some ctx1 ∧
      ctx1.GetInputMemType 2 = some MemoryType.GPU_BUFFER ∧
      ctx1.GetInputMemType 0 = some MemoryType.GPU_IMAGE ∧
      ctx1.GetInputMemType 5 = none) :=
  getInputMemType_default_propagation
    { operator_def := some fourInputDef,
      output_mem_type := MemoryType.GPU_IMAGE }
    MemoryType.GPU_BUFFER DataType.DT_HALF fourInputDef rfl rfl rfl rfl

/-- A 3-input operator definition (first definition in the C5 scenario). -/
def threeInputDef : OperatorDef :=
  { type := "A", name := "a", input := ["x", "y", "z"], output := [],
    output_type := [], output_shape := [], arg := [] }

/-- A 5-input operator definition (swapped in by the C5 scenario). -/
def fiveInputDef : OperatorDef :=
  { type := "B", name := "b", input := ["i1", "i2", "i3", "i4", "i5"],
    output := [], output_type := [], output_shape := [], arg := [] }

/-- The C5 counterexample call sequence: materialize both per-input lists
under the 3-input definition, then swap in the 5-input definition
(`set_operator_def` clears only `input_data_types_`). -/
def c5seq : List CtxOp :=
  [CtxOp.setDef threeInputDef, CtxOp.setOutMem MemoryType.CPU_BUFFER,
   CtxOp.setInput 0 MemoryType.GPU_BUFFER DataType.DT_FLOAT,
   CtxOp.setDef fiveInputDef]

/-- The context state reached by `c5seq`: `input_mem_types` is still the
stale 3-entry list while the current definition declares 5 inputs. -/
def c5ctx : OpConstructContext :=
  { operator_def := some fiveInputDef,
    output_mem_type := MemoryType.CPU_BUFFER,
    input_mem_types := [MemoryType.GPU_BUFFER, MemoryType.CPU_BUFFER,
      MemoryType.CPU_BUFFER],
    input_data_types := [] }

/-- C5 counterexample: the claimed invariant — a materialized
`input_mem_types` or `input_data_types` always has length equal to the
current definition's input count — is false: after `c5seq`,
`input_mem_types` has length 3 while the current definition has 5
inputs. -/
theorem ctx_materialized_length_claim_false :
    ¬ (∀ (ops : List CtxOp) (ctx : OpConstructContext),
        ctxRun ops {} = some ctx →
        (ctx.input_mem_types ≠ [] →
          ∃ d, ctx.operator_def = some d ∧
            ctx.input_mem_types.length = d.input.length) ∧
        (ctx.input_data_types ≠ [] →
          ∃ d, ctx.operator_def = some d ∧
            ctx.input_data_types.length = d.input.length)) := by
  intro h
  obtain ⟨d, hd, hlen⟩ := (h c5seq c5ctx (by decide)).1 (by decide)
  have hdB : d = fiveInputDef := by
    have h2 : some fiveInputDef = some d := hd
    exact (Option.some.inj h2).symm
  subst hdB
  exact absurd hlen (by decide)

/-- The data-type half of the materialization invariant, as a state
predicate. -/
def ctxDataInv (c : OpConstructContext) : Prop :=
  c.input_data_types ≠ [] →
    ∃ d, c.operator_def = some d ∧
      c.input_data_types.length = d.input.length

lemma ctxStep_preserves_dataInv {c c1 : OpConstructContext} {o : CtxOp}
    (hI : ctxDataInv c) (hstep : ctxStep c o = some c1) : ctxDataInv c1 := by
  cases o with
  | setDef d =>
    injection hstep with h
    subst h
    intro hne
    exact absurd rfl hne
  | setOutMem m =>
    unfold ctxStep OpConstructContext.set_output_mem_type at hstep
    cases hd : c.operator_def with
    | none => rw [hd] at hstep; cases hstep
    | some d0 =>
      rw [hd] at hstep
      injection hstep with h
      subst h
      intro hne
      obtain ⟨d, hd2, hlen⟩ := hI hne
      refine ⟨d, ?_, hlen⟩
      show some d0 = some d
      rw [← hd]
      exact hd2
  | setInput idx m dt =>
    unfold ctxStep OpConstructContext.SetInputInfo at hstep
    cases hd : c.operator_def with
    | none => rw [hd] at hstep; cases hstep
    | some d0 =>
      rw [hd] at hstep
      simp only at hstep
      generalize (if c.input_mem_types.isEmpty = true
        then List.replicate d0.input.length c.output_mem_type
        else c.input_mem_types) = memT at hstep
      by_cases hde : c.input_data_types.isEmpty = true
      · rw [if_pos hde] at hstep
        split at hstep
        · injection hstep with h
          subst h
          intro _
          refine ⟨d0, rfl, ?_⟩
          simp
        · exact Option.noConfusion hstep
      · rw [if_neg hde] at hstep
        have hne : c.input_data_types ≠ [] := by
          intro hnil
          exact hde (by simp [hnil])
        obtain ⟨d, hd2, hlen⟩ := hI hne
        rw [hd] at hd2
        injection hd2 with hdd
        split at hstep
        · injection hstep with h
          subst h
          intro _
          refine ⟨d0, rfl, ?_⟩
          simp only [List.length_set]
          rw [hlen, hdd]
        · exact Option.noConfusion hstep

lemma ctxRun_preserves_dataInv (ops : List CtxOp) :
    ∀ {c c1 : OpConstructContext}, ctxDataInv c →
      ctxRun ops c = some c1 → ctxDataInv c1 := by
  induction ops with
  | nil =>
    intro c c1 hI hrun
    injection hrun with h
    subst h
    exact hI
  | cons o rest ih =>
    intro c c1 hI hrun
    unfold ctxRun at hrun
    cases hstep : ctxStep c o with
    | none => rw [hstep] at hrun; cases hrun
    | some c2 =>
      rw [hstep] at hrun
      exact ih (ctxStep_preserves_dataInv hI hstep) hrun

/-- C5 (amended): for every sequence of context operations starting from a
fresh context, whenever `input_data_types` is materialized (non-empty) its
length equals the input count of the context's current operator
definition. (The same does not hold for `input_mem_types`: only
`set_output_mem_type` invalidates it, so `set_operator_def` can leave it
stale, as the counterexample shows.) -/
theorem input_data_types_length_invariant
    (ops : List CtxOp) (ctx : OpConstructContext)
    (hrun : ctxRun ops {} = some ctx)
    (hne : ctx.input_data_types ≠ []) :
    ∃ d, ctx.operator_def = some d ∧
      ctx.input_data_types.length = d.input.length := by
  have hI0 : ctxDataInv {} := by
    intro hne0
    exact absurd rfl hne0
  exact ctxRun_preserves_dataInv ops hI0 hrun hne

/-- The context state used to witness the amended C5 invariant. -/
def c5wctx : OpConstructContext :=
  { operator_def := some threeInputDef,
    output_mem_type := MemoryType.CPU_BUFFER,
    input_mem_types := [MemoryType.CPU_BUFFER, MemoryType.GPU_BUFFER,
      MemoryType.CPU_BUFFER],
    input_data_types := [DataType.DT_FLOAT, DataType.DT_HALF,
      DataType.DT_FLOAT] }

/-- Witness for the amended C5 theorem at a concrete call sequence. -/
theorem input_data_types_length_invariant_witness :
    ∃ d, c5wctx.operator_def = some d ∧
      c5wctx.input_data_types.length = d.input.length :=
  input_data_types_length_invariant
    [CtxOp.setDef threeInputDef, CtxOp.setOutMem MemoryType.CPU_BUFFER,
     CtxOp.setInput 1 MemoryType.GPU_BUFFER DataType.DT_HALF]
    c5wctx (by decide) (by decide)

/-- C8: registering the same (operator type, device) pair twice with two
different data types succeeds and leaves two distinct creator keys in that
type's RegistrationInfo; registering the exact same (type, device, data
type) triple twice is a fatal error on the second registration. -/
theorem register_by_device_not_by_key
    (ty : String) (dev : DeviceType) (dt1 dt2 : DataType) :
    (dt1 ≠ dt2 →
      ∃ reg1 reg2 info,
        OpRegistryBase.Register {} ty dev dt1 = some reg1 ∧
        reg1.Register ty dev dt2 = some reg2 ∧
        reg2.find ty = some info ∧
        info.creators = [opKeyBuild ty dev dt1, opKeyBuild ty dev dt2] ∧
        opKeyBuild ty dev dt1 ≠ opKeyBuild ty dev dt2) ∧
    (∀ reg1, OpRegistryBase.Register {} ty dev dt1 = some reg1 →
      reg1.Register ty dev dt1 = none) := by
  have hreg1 : OpRegistryBase.Register {} ty dev dt1 =
      some (OpRegistryBase.mk
        [(ty, ({ devices := [dev], creators := [opKeyBuild ty dev dt1] }
          : OpRegistrationInfo))]) := by
    simp [OpRegistryBase.Register, OpRegistryBase.find, OpRegistryBase.store,
      OpRegistrationInfo.AddDevice, OpRegistrationInfo.RegisterKey,
      insertDevice]
  constructor
  · intro hne
    have hk : opKeyBuild ty dev dt1 ≠ opKeyBuild ty dev dt2 := by
      intro h
      exact hne (opKeyBuild_inj h).2.2
    have hreg2 : (OpRegistryBase.mk
        [(ty, ({ devices := [dev], creators := [opKeyBuild ty dev dt1] }
          : OpRegistrationInfo))]).Register ty dev dt2 =
        some (OpRegistryBase.mk
          [(ty, ({ devices := [dev],
                   creators := [opKeyBuild ty dev dt1,
                     opKeyBuild ty dev dt2] } : OpRegistrationInfo))]) := by
      simp [OpRegistryBase.Register, OpRegistryBase.find,
        OpRegistryBase.store, OpRegistrationInfo.AddDevice,
        OpRegistrationInfo.RegisterKey, insertDevice, hk, Ne.symm hk]
    have hfind : (OpRegistryBase.mk
        [(ty, ({ devices := [dev],
                 creators := [opKeyBuild ty dev dt1,
                   opKeyBuild ty dev dt2] } : OpRegistrationInfo))]).find ty =
        some ({ devices := [dev],
                creators := [opKeyBuild ty dev dt1, opKeyBuild ty dev dt2] }
          : OpRegistrationInfo) := by
      simp [OpRegistryBase.find]
    exact ⟨_, _, _, hreg1, hreg2, hfind, rfl, hk⟩
  · intro reg1 h1
    rw [hreg1] at h1
    injection h1 with h1
    subst h1
    simp [OpRegistryBase.Register, OpRegistryBase.find, OpRegistryBase.store,
      OpRegistrationInfo.AddDevice, OpRegistrationInfo.RegisterKey,
      insertDevice]

/-- The registry state after registering ("Conv", CPU, DT_FLOAT) once. -/
def wregConv : OpRegistryBase :=
  OpRegistryBase.mk
    [("Conv",
      ({ devices := [DeviceType.CPU],
         creators := [opKeyBuild "Conv" DeviceType.CPU DataType.DT_FLOAT] }
        : OpRegistrationInfo))]

/-- Witness for C8 at a concrete operator type, device and data types. -/
theorem register_by_device_not_by_key_witness :
    (∃ reg1 reg2 info,
      OpRegistryBase.Register {} "Conv" DeviceType.CPU DataType.DT_FLOAT
        = some reg1 ∧
      reg1.Register "Conv" DeviceType.CPU DataType.DT_HALF = some reg2 ∧
      reg2.find "Conv" = some info ∧
      info.creators = [opKeyBuild "Conv" DeviceType.CPU DataType.DT_FLOAT,
        opKeyBuild "Conv" DeviceType.CPU DataType.DT_HALF] ∧
      opKeyBuild "Conv" DeviceType.CPU DataType.DT_FLOAT
        ≠ opKeyBuild "Conv" DeviceType.CPU DataType.DT_HALF) ∧
    wregConv.Register "Conv" DeviceType.CPU DataType.DT_FLOAT = none :=
  ⟨(register_by_device_not_by_key "Conv" DeviceType.CPU DataType.DT_FLOAT
      DataType.DT_HALF).1 (by decide),
   (register_by_device_not_by_key "Conv" DeviceType.CPU DataType.DT_FLOAT
      DataType.DT_HALF).2 wregConv (by
        simp [wregConv, OpRegistryBase.Register, OpRegistryBase.find,
          OpRegistryBase.store, OpRegistrationInfo.AddDevice,
          OpRegistrationInfo.RegisterKey, insertDevice])⟩

lemma find_T_rewrite (l : List Arg) :
    (l.map (fun a =>
        if a.name = "T" then { a with i := DataType.DT_FLOAT.toInt }
        else a)).find? (fun a => a.name = "T")
    = (l.find? (fun a => a.name = "T")).map
        (fun a => { a with i := DataType.DT_FLOAT.toInt }) := by
  rw [List.find?_map]
  have hp : ((fun a : Arg => decide (a.name = "T")) ∘ (fun a : Arg =>
      if a.name = "T" then { a with i := DataType.DT_FLOAT.toInt } else a))
      = fun a : Arg => decide (a.name = "T") := by
    funext a
    by_cases h : a.name = "T" <;> simp [h]
  rw [hp]
  cases hf : List.find? (fun a => decide (a.name = "T")) l with
  | none => rfl
  | some a =>
    have ha := List.find?_some hf
    simp only [decide_eq_true_eq] at ha
    simp [ha]

lemma resolved_rewrite (d : OperatorDef)
    (h : resolvedDataType d = DataType.DT_HALF) :
    resolvedDataType (rewriteTToFloat d) = DataType.DT_FLOAT := by
  unfold resolvedDataType getOptionalArgInt rewriteTToFloat at *
  simp only [find_T_rewrite]
  cases hf : d.arg.find? (fun a => a.name = "T") with
  | none =>
    rw [hf] at h
    simp [DataType.ofInt, DataType.toInt] at h
  | some a =>
    rw [hf] at h
    simp [DataType.ofInt, DataType.toInt]

lemma rewrite_T_args (d : OperatorDef) :
    ∀ a ∈ (rewriteTToFloat d).arg, a.name = "T" →
      a.i = DataType.DT_FLOAT.toInt := by
  intro a ha hname
  unfold rewriteTToFloat at ha
  simp only [List.mem_map] at ha
  obtain ⟨b, hb, hba⟩ := ha
  by_cases h : b.name = "T"
  · rw [if_pos h] at hba
    rw [← hba]
  · rw [if_neg h] at hba
    rw [← hba] at hname
    exact absurd hname h

/-- C2: on a context whose definition resolves attribute `"T"` to
half-precision, `CreateOperation` with device CPU rewrites every `"T"`
argument of the shared definition in place to single-precision (so the
definition re-resolves to single-precision) and dispatches with the
single-precision key; with device GPU the definition is left unchanged and
dispatch uses the half-precision key. -/
theorem createOperation_half_precision_downgrade
    (reg : OpRegistryBase) (ctx : OpConstructContext) (d : OperatorDef)
    (hctx : ctx.operator_def = some d)
    (hT : resolvedDataType d = DataType.DT_HALF)
    (info : OpRegistrationInfo) (hfind : reg.find d.type = some info)
    (hcpuKey : info.creators.contains
      (opKeyBuild d.type DeviceType.CPU DataType.DT_FLOAT) = true)
    (hgpuKey : info.creators.contains
      (opKeyBuild d.type DeviceType.GPU DataType.DT_HALF) = true) :
    (reg.CreateOperation ctx DeviceType.CPU =
      some ({ ctx with operator_def := some (rewriteTToFloat d) },
        opKeyBuild d.type DeviceType.CPU DataType.DT_FLOAT)) ∧
    (∀ a ∈ (rewriteTToFloat d).arg, a.name = "T" →
      a.i = DataType.DT_FLOAT.toInt) ∧
    resolvedDataType (rewriteTToFloat d) = DataType.DT_FLOAT ∧
    (reg.CreateOperation ctx DeviceType.GPU =
      some (ctx, opKeyBuild d.type DeviceType.GPU DataType.DT_HALF)) := by
  have hcpuMem : opKeyBuild d.type DeviceType.CPU DataType.DT_FLOAT
      ∈ info.creators := by
    have h2 := List.contains_iff_exists_mem_beq.1 hcpuKey
    obtain ⟨k, hk, hbeq⟩ := h2
    rwa [show opKeyBuild d.type DeviceType.CPU DataType.DT_FLOAT = k from
      eq_of_beq hbeq]
  have hgpuMem : opKeyBuild d.type DeviceType.GPU DataType.DT_HALF
      ∈ info.creators := by
    have h2 := List.contains_iff_exists_mem_beq.1 hgpuKey
    obtain ⟨k, hk, hbeq⟩ := h2
    rwa [show opKeyBuild d.type DeviceType.GPU DataType.DT_HALF = k from
      eq_of_beq hbeq]
  refine ⟨?_, rewrite_T_args d, resolved_rewrite d hT, ?_⟩
  · have htype : (rewriteTToFloat d).type = d.type := rfl
    simp [OpRegistryBase.CreateOperation, hctx, hT, htype, hfind, hcpuMem]
  · have hctx1 : ({ ctx with operator_def := some d } : OpConstructContext)
        = ctx := by
      rw [← hctx]
    simp [OpRegistryBase.CreateOperation, hctx, hT, hfind, hgpuMem, hctx1]

/-- A definition whose `"T"` attribute holds the half-precision enum
value. -/
def halfDef : OperatorDef :=
  { type := "Conv", name := "c", input := [], output := [],
    output_type := [], output_shape := [], arg := [Arg.mk "T" 3] }

/-- Registration info for `halfDef.type` holding a CPU/float and a
GPU/half creator. -/
def whalfInfo : OpRegistrationInfo :=
  { devices := [DeviceType.CPU, DeviceType.GPU],
    creators := [opKeyBuild "Conv" DeviceType.CPU DataType.DT_FLOAT,
      opKeyBuild "Conv" DeviceType.GPU DataType.DT_HALF] }

/-- Registry with `whalfInfo` registered for "Conv". -/
def wregHalf : OpRegistryBase := OpRegistryBase.mk [("Conv", whalfInfo)]

/-- Witness for C2 at a concrete context and registry. -/
theorem createOperation_half_precision_downgrade_witness :
    (wregHalf.CreateOperation { operator_def := some halfDef }
        DeviceType.CPU =
      some ({ operator_def := some (rewriteTToFloat halfDef) },
        opKeyBuild halfDef.type DeviceType.CPU DataType.DT_FLOAT)) ∧
    (∀ a ∈ (rewriteTToFloat halfDef).arg, a.name = "T" →
      a.i = DataType.DT_FLOAT.toInt) ∧
    resolvedDataType (rewriteTToFloat halfDef) = DataType.DT_FLOAT ∧
    (wregHalf.CreateOperation { operator_def := some halfDef }
        DeviceType.GPU =
      some ({ operator_def := some halfDef },
        opKeyBuild halfDef.type DeviceType.GPU DataType.DT_HALF)) :=
  createOperation_half_precision_downgrade wregHalf
    { operator_def := some halfDef } halfDef rfl (by decide) whalfInfo
    (by simp [wregHalf, OpRegistryBase.find, halfDef]) (by decide) (by decide)

lemma getTensor_setShapeConfigured (ws : Workspace) (name n : String)
    (shape : List Int) :
    (ws.setShapeConfigured name shape).getTensor n
    = (ws.getTensor n).map (fun t =>
        if n = name then { t with shape_configured := some shape } else t) := by
  unfold Workspace.setShapeConfigured Workspace.getTensor
  simp only []
  rw [List.find?_map]
  have hp : ((fun q : String × Tensor => decide (q.1 = n)) ∘
      (fun p : String × Tensor =>
        if p.1 = name then (p.1, { p.2 with shape_configured := some shape })
        else p)) = fun q : String × Tensor => decide (q.1 = n) := by
    funext q
    by_cases h : q.1 = name <;> simp [h]
  rw [hp]
  cases hf : ws.tensors.find? (fun q => q.1 = n) with
  | none => rfl
  | some q =>
    have hq := List.find?_some hf
    simp only [decide_eq_true_eq] at hq
    by_cases hqn : n = name
    · simp [hq, hqn]
    · have : ¬ q.1 = name := by rw [hq]; exact hqn
      simp [this, hqn]

lemma hasTensor_setShapeConfigured (ws : Workspace) (name n : String)
    (shape : List Int) :
    (ws.setShapeConfigured name shape).hasTensor n = ws.hasTensor n := by
  unfold Workspace.hasTensor
  rw [getTensor_setShapeConfigured]
  cases ws.getTensor n <;> simp

lemma length_setShapeConfigured (ws : Workspace) (name : String)
    (shape : List Int) :
    (ws.setShapeConfigured name shape).tensors.length
      = ws.tensors.length := by
  simp [Workspace.setShapeConfigured]

lemma getTensor_createTensor (ws : Workspace) (name n : String)
    (dt : DataType) :
    (ws.createTensor name dt).getTensor n
    = ((ws.getTensor n).or
        (if name = n then some { dtype := dt, shape_configured := none }
          else none)) := by
  unfold Workspace.createTensor Workspace.getTensor
  simp only []
  rw [List.find?_append]
  cases hf : ws.tensors.find? (fun q => q.1 = n) with
  | some q => simp [Option.or]
  | none =>
    by_cases hn : name = n
    · simp [List.find?_cons, hn, Option.or]
    · simp [List.find?_cons, hn, Option.or]

lemma length_createTensor (ws : Workspace) (name : String) (dt : DataType) :
    (ws.createTensor name dt).tensors.length = ws.tensors.length + 1 := by
  simp [Workspace.createTensor]

lemma applyShapeConfig_dtype (d : OperatorDef) (ws : Workspace) (i : Nat)
    (name : String) :
    ∀ n t, ws.getTensor n = some t →
      ∃ t2, (applyShapeConfig d ws i name).getTensor n = some t2 ∧
        t2.dtype = t.dtype := by
  intro n t h
  unfold applyShapeConfig
  cases d.output_shape.get? i with
  | none => exact ⟨t, h, rfl⟩
  | some s =>
    rw [getTensor_setShapeConfigured, h]
    by_cases hn : n = name <;> simp [hn]

lemma applyShapeConfig_has (d : OperatorDef) (ws : Workspace) (i : Nat)
    (name n : String) :
    (applyShapeConfig d ws i name).hasTensor n = ws.hasTensor n := by
  unfold applyShapeConfig
  cases d.output_shape.get? i with
  | none => rfl
  | some s => exact hasTensor_setShapeConfigured ws name n s.dims

lemma applyShapeConfig_length (d : OperatorDef) (ws : Workspace) (i : Nat)
    (name : String) :
    (applyShapeConfig d ws i name).tensors.length = ws.tensors.length := by
  unfold applyShapeConfig
  cases d.output_shape.get? i with
  | none => rfl
  | some s => exact length_setShapeConfigured ws name s.dims

lemma bindInputs_all_present (ty : String) (ws : Workspace) :
    ∀ names : List String, (∀ n ∈ names, ws.hasTensor n = true) →
      ∃ ts, bindInputs ty ws names = .ok ts ∧
        List.Forall₂ (fun n t => ws.getTensor n = some t) names ts := by
  intro names
  induction names with
  | nil => exact fun _ => ⟨[], rfl, List.Forall₂.nil⟩
  | cons n rest ih =>
    intro h
    have hn : ws.hasTensor n = true := h n (List.mem_cons_self n rest)
    obtain ⟨t, ht⟩ := Option.isSome_iff_exists.1 hn
    obtain ⟨ts, hts, hall⟩ := ih (fun m hm => h m (List.mem_cons_of_mem n hm))
    refine ⟨t :: ts, ?_, List.Forall₂.cons ht hall⟩
    unfold bindInputs
    rw [ht, hts]

lemma bindInputs_missing (ty : String) (ws : Workspace) :
    ∀ (pre : List String) (n : String) (post : List String),
      (∀ m ∈ pre, ws.hasTensor m = true) → ws.hasTensor n = false →
      bindInputs ty ws (pre ++ n :: post) =
        .error ("op " ++ ty ++ ": Encountered a non-existing input tensor: "
          ++ n) := by
  intro pre
  induction pre with
  | nil =>
    intro n post _ hn
    have hget : ws.getTensor n = none := by
      cases hg : ws.getTensor n with
      | none => rfl
      | some t => rw [Workspace.hasTensor, hg] at hn; simp at hn
    unfold bindInputs
    rw [List.nil_append]
    simp only [hget]
  | cons m pre ih =>
    intro n post hpre hn
    have hm : ws.hasTensor m = true := hpre m (List.mem_cons_self m pre)
    obtain ⟨t, ht⟩ := Option.isSome_iff_exists.1 hm
    have hrest := ih n post (fun x hx => hpre x (List.mem_cons_of_mem m hx)) hn
    rw [List.cons_append]
    simp only [bindInputs, ht, hrest]

/-- The output-type-count consistency condition checked by the creation
branch of `Operation::Init`. -/
def typeCountsConsistent (d : OperatorDef) : Prop :=
  d.output_type.length = 0 ∨ d.output.length = d.output_type.length

instance (d : OperatorDef) : Decidable (typeCountsConsistent d) := by
  unfold typeCountsConsistent
  infer_instance

lemma bindOutputs_characterize (d : OperatorDef)
    (hc : typeCountsConsistent d) :
    ∀ (names : List String) (i : Nat) (ws : Workspace), names.Nodup →
      ∃ ws', bindOutputs d ws i names = .ok (ws', names) ∧
        (∀ n t, ws.getTensor n = some t →
          ∃ t2, ws'.getTensor n = some t2 ∧ t2.dtype = t.dtype) ∧
        (∀ j (hj : j < names.length),
          ws.hasTensor (names.get ⟨j, hj⟩) = false →
          ∃ t2, ws'.getTensor (names.get ⟨j, hj⟩) = some t2 ∧
            t2.dtype = resolveOutputType d (i + j)) ∧
        ws'.tensors.length = ws.tensors.length +
          (names.filter (fun n => !ws.hasTensor n)).length := by
  intro names
  induction names with
  | nil =>
    intro i ws _
    refine ⟨ws, rfl, fun n t h => ⟨t, h, rfl⟩, ?_, by simp⟩
    intro j hj
    exact absurd hj (by simp)
  | cons name rest ih =>
    intro i ws hnodup
    obtain ⟨hnotmem, hndrest⟩ := List.nodup_cons.1 hnodup
    by_cases hin : ws.hasTensor name = true
    · -- the output tensor already exists: reuse it
      set ws2 := applyShapeConfig d ws i name with hws2
      obtain ⟨ws', hbind, hpres, hcreate, hlen⟩ := ih (i + 1) ws2 hndrest
      have hstep : bindOutputs d ws i (name :: rest) = .ok (ws', name :: rest) := by
        simp only [bindOutputs, bindOutput, hin, if_true, ← hws2, hbind]
      refine ⟨ws', hstep, ?_, ?_, ?_⟩
      · intro n t h
        obtain ⟨t2, h2, hd2⟩ := applyShapeConfig_dtype d ws i name n t h
        obtain ⟨t3, h3, hd3⟩ := hpres n t2 h2
        exact ⟨t3, h3, hd3.trans hd2⟩
      · intro j hj habs
        cases j with
        | zero => rw [List.get] at habs; rw [habs] at hin; cases hin
        | succ j =>
          have hj2 : j < rest.length := by
            simpa using hj
          have habs2 : ws2.hasTensor (rest.get ⟨j, hj2⟩) = false := by
            rw [hws2, applyShapeConfig_has]
            exact habs
          obtain ⟨t2, h2, hd2⟩ := hcreate j hj2 habs2
          refine ⟨t2, h2, ?_⟩
          rw [hd2]
          congr 1
          omega
      · rw [hlen]
        have hl2 : ws2.tensors.length = ws.tensors.length := by
          rw [hws2]; exact applyShapeConfig_length d ws i name
        have hfeq : rest.filter (fun n => !ws2.hasTensor n)
            = rest.filter (fun n => !ws.hasTensor n) := by
          apply List.filter_congr
          intro x _
          rw [hws2, applyShapeConfig_has]
        rw [hl2, hfeq, List.filter_cons]
        simp [hin]
    · -- the output tensor is absent: create it with the resolved type
      have hinf : ws.hasTensor name = false := by
        cases h : ws.hasTensor name with
        | true => exact absurd h hin
        | false => rfl
      set ws1 := ws.createTensor name (resolveOutputType d i) with hws1
      set ws2 := applyShapeConfig d ws1 i name with hws2
      obtain ⟨ws', hbind, hpres, hcreate, hlen⟩ := ih (i + 1) ws2 hndrest
      have hc2 : d.output_type.length = 0
          ∨ d.output.length = d.output_type.length := hc
      have hstep : bindOutputs d ws i (name :: rest)
          = .ok (ws', name :: rest) := by
        simp only [bindOutputs, bindOutput, hinf, Bool.false_eq_true,
          if_false, hc2, if_true, ← hws1, ← hws2, hbind]
      have hget1 : ∀ n t, ws.getTensor n = some t → ws1.getTensor n = some t := by
        intro n t h
        rw [hws1, getTensor_createTensor, h]
        rfl
      have hhas1 : ∀ n, n ≠ name → ws1.hasTensor n = ws.hasTensor n := by
        intro n hn
        simp only [Workspace.hasTensor]
        rw [hws1, getTensor_createTensor, if_neg (fun h => hn h.symm)]
        cases ws.getTensor n <;> rfl
      refine ⟨ws', hstep, ?_, ?_, ?_⟩
      · intro n t h
        obtain ⟨t2, h2, hd2⟩ := applyShapeConfig_dtype d ws1 i name n t
          (hget1 n t h)
        obtain ⟨t3, h3, hd3⟩ := hpres n t2 h2
        exact ⟨t3, h3, hd3.trans hd2⟩
      · intro j hj habs
        cases j with
        | zero =>
          have hg1 : ws1.getTensor name
              = some { dtype := resolveOutputType d i } := by
            rw [hws1, getTensor_createTensor]
            have hgn : ws.getTensor name = none := by
              cases hg : ws.getTensor name with
              | none => rfl
              | some t => rw [Workspace.hasTensor, hg] at hinf; simp at hinf
            rw [hgn, if_pos rfl]
            rfl
          obtain ⟨t2, h2, hd2⟩ := applyShapeConfig_dtype d ws1 i name name _ hg1
          obtain ⟨t3, h3, hd3⟩ := hpres name t2 h2
          refine ⟨t3, h3, ?_⟩
          rw [hd3, hd2]
          simp
        | succ j =>
          have hj2 : j < rest.length := by simpa using hj
          have hne : rest.get ⟨j, hj2⟩ ≠ name := by
            intro h
            exact hnotmem (h ▸ rest.get_mem j hj2)
          have habs2 : ws2.hasTensor (rest.get ⟨j, hj2⟩) = false := by
            rw [hws2, applyShapeConfig_has, hhas1 _ hne]
            exact habs
          obtain ⟨t2, h2, hd2⟩ := hcreate j hj2 habs2
          refine ⟨t2, h2, ?_⟩
          rw [hd2]
          congr 1
          omega
      · rw [hlen]
        have hl2 : ws2.tensors.length = ws.tensors.length + 1 := by
          rw [hws2, applyShapeConfig_length, hws1, length_createTensor]
        have hfeq : rest.filter (fun n => !ws2.hasTensor n)
            = rest.filter (fun n => !ws.hasTensor n) := by
          apply List.filter_congr
          intro x hx
          have hxne : x ≠ name := fun h => hnotmem (h ▸ hx)
          rw [hws2, applyShapeConfig_has, hhas1 x hxne]
        rw [hl2, hfeq, List.filter_cons]
        simp only [hinf, Bool.not_false, if_true, List.length_cons]
        omega

lemma bindOutputs_inconsistent (d : OperatorDef)
    (hc : ¬ typeCountsConsistent d) :
    ∀ (names : List String) (i : Nat) (ws : Workspace),
      (∃ j, ∃ hj : j < names.length,
        ws.hasTensor (names.get ⟨j, hj⟩) = false) →
      bindOutputs d ws i names =
        .error "operator output size != operator output type size" := by
  intro names
  induction names with
  | nil =>
    intro i ws h
    obtain ⟨j, hj, _⟩ := h
    exact absurd hj (by simp)
  | cons name rest ih =>
    intro i ws h
    by_cases hin : ws.hasTensor name = true
    · obtain ⟨j, hj, habs⟩ := h
      cases j with
      | zero => rw [List.get] at habs; rw [habs] at hin; cases hin
      | succ j =>
        have hj2 : j < rest.length := by simpa using hj
        have habs2 : (applyShapeConfig d ws i name).hasTensor
            (rest.get ⟨j, hj2⟩) = false := by
          rw [applyShapeConfig_has]
          exact habs
        have herr := ih (i + 1) (applyShapeConfig d ws i name)
          ⟨j, hj2, habs2⟩
        simp only [bindOutputs, bindOutput, hin, if_true, herr]
    · have hinf : ws.hasTensor name = false := by
        cases h2 : ws.hasTensor name with
        | true => exact absurd h2 hin
        | false => rfl
      have hc2 : ¬ (d.output_type.length = 0
          ∨ d.output.length = d.output_type.length) := hc
      simp only [bindOutputs, bindOutput, hinf, Bool.false_eq_true, if_false]
      rw [if_neg hc2]

/-- C7: `Init` fails fatally with a diagnostic naming the operator type and
the missing input name whenever a declared input has no workspace tensor;
when every input resolves, the input-binding step succeeds, binds all
inputs in declared order, and any successful `Init` carries exactly those
tensors. -/
theorem init_missing_input_fatality
    (d : OperatorDef) (ws : Workspace) (op : Operation)
    (hop : op.operator_def = d) :
    (∀ pre n post, d.input = pre ++ n :: post →
      (∀ m ∈ pre, ws.hasTensor m = true) → ws.hasTensor n = false →
      op.Init ws = .error ("op " ++ d.type ++
        ": Encountered a non-existing input tensor: " ++ n)) ∧
    ((∀ n ∈ d.input, ws.hasTensor n = true) →
      ∃ ts, bindInputs d.type ws d.input = .ok ts ∧
        List.Forall₂ (fun n t => ws.getTensor n = some t) d.input ts ∧
        ∀ res, op.Init ws = .ok res → res.2.inputs = ts) := by
  subst hop
  constructor
  · intro pre n post hsplit hpre hn
    unfold Operation.Init
    rw [hsplit]
    simp only [bindInputs_missing op.operator_def.type ws pre n post hpre hn]
  · intro hall
    obtain ⟨ts, hts, hfa⟩ :=
      bindInputs_all_present op.operator_def.type ws op.operator_def.input
        hall
    refine ⟨ts, hts, hfa, ?_⟩
    intro res hres
    unfold Operation.Init at hres
    cases hbo : bindOutputs op.operator_def ws 0 op.operator_def.output with
    | error e =>
      simp only [hts, hbo] at hres
      exact Except.noConfusion hres
    | ok p =>
      obtain ⟨ws1, outs⟩ := p
      simp only [hts, hbo, Except.ok.injEq] at hres
      rw [← hres]

/-- C6: for every declared output name, `Init` reuses the existing
workspace tensor when present (no tensor is created for it and its data
type is untouched), and when absent creates a tensor whose data type is
the explicit per-output declared type when one exists at that index,
otherwise the operator's primary resolved type; when some output is
absent and the declared output-type count is non-zero yet differs from the
declared output count, `Init` fails fatally. -/
theorem init_output_reuse_and_creation
    (d : OperatorDef) (ws : Workspace) (op : Operation)
    (hop : op.operator_def = d)
    (hins : ∀ n ∈ d.input, ws.hasTensor n = true)
    (hnodup : d.output.Nodup) :
    (typeCountsConsistent d →
      ∃ ws2 op2, op.Init ws = .ok (ws2, op2) ∧
        (∀ n t, ws.getTensor n = some t →
          ∃ t2, ws2.getTensor n = some t2 ∧ t2.dtype = t.dtype) ∧
        (∀ j (hj : j < d.output.length),
          ws.hasTensor (d.output.get ⟨j, hj⟩) = false →
          ∃ t2, ws2.getTensor (d.output.get ⟨j, hj⟩) = some t2 ∧
            t2.dtype = resolveOutputType d j) ∧
        ws2.tensors.length = ws.tensors.length +
          (d.output.filter (fun n => !ws.hasTensor n)).length) ∧
    (¬ typeCountsConsistent d →
      (∃ j, ∃ hj : j < d.output.length,
        ws.hasTensor (d.output.get ⟨j, hj⟩) = false) →
      op.Init ws =
        .error "operator output size != operator output type size") := by
  subst hop
  obtain ⟨ts, hts, _⟩ :=
    bindInputs_all_present op.operator_def.type ws op.operator_def.input hins
  constructor
  · intro hcons
    obtain ⟨ws2, hbo, hpres, hcreate, hlen⟩ :=
      bindOutputs_characterize op.operator_def hcons op.operator_def.output
        0 ws hnodup
    refine ⟨ws2,
      { op with inputs := ts, outputs := op.operator_def.output },
      ?_, hpres, ?_, hlen⟩
    · unfold Operation.Init
      simp only [hts, hbo]
    · intro j hj habs
      obtain ⟨t2, h2, hd2⟩ := hcreate j hj habs
      refine ⟨t2, h2, ?_⟩
      rw [hd2]
      congr 1
      omega
  · intro hcons hex
    unfold Operation.Init
    simp only [hts,
      bindOutputs_inconsistent op.operator_def hcons op.operator_def.output
        0 ws hex]

/-- Registration info for a type supporting {CPU, GPU} with the default
placement policy kept. -/
def wplaceInfo : OpRegistrationInfo :=
  { devices := [DeviceType.CPU, DeviceType.GPU] }

/-- Registry holding `wplaceInfo` under "Pool". -/
def wregPlace : OpRegistryBase := OpRegistryBase.mk [("Pool", wplaceInfo)]

/-- One-output definition with a rank-3 configured shape. -/
def rank3Def : OperatorDef :=
  { type := "Pool", name := "p", input := [], output := ["o0"],
    output_type := [], output_shape := [OutputShape.mk [1, 2, 3]],
    arg := [] }

/-- One-output definition with a rank-4 configured shape. -/
def rank4Def : OperatorDef :=
  { rank3Def with output_shape := [OutputShape.mk [1, 2, 3, 4]] }

/-- One-output definition with zero configured shapes. -/
def noShapeDef : OperatorDef :=
  { rank3Def with output_shape := [] }

/-- Witness for C1 at a concrete registry and three concrete contexts. -/
theorem availableDevices_default_placement_rule_witness :
    wregPlace.AvailableDevices "Pool" { operator_def := some rank3Def }
      = some [DeviceType.CPU] ∧
    wregPlace.AvailableDevices "Pool" { operator_def := some rank4Def }
      = some [DeviceType.CPU, DeviceType.GPU] ∧
    wregPlace.AvailableDevices "Pool" { operator_def := some noShapeDef }
      = some [DeviceType.CPU, DeviceType.GPU] :=
  ⟨(availableDevices_default_placement_rule wregPlace "Pool" wplaceInfo
      (by simp [wregPlace, OpRegistryBase.find]) rfl rfl
      { operator_def := some rank3Def } rank3Def rfl rfl).1
      (OutputShape.mk [1, 2, 3]) rfl rfl,
   (availableDevices_default_placement_rule wregPlace "Pool" wplaceInfo
      (by simp [wregPlace, OpRegistryBase.find]) rfl rfl
      { operator_def := some rank4Def } rank4Def rfl rfl).2.1
      (OutputShape.mk [1, 2, 3, 4]) rfl rfl,
   (availableDevices_default_placement_rule wregPlace "Pool" wplaceInfo
      (by simp [wregPlace, OpRegistryBase.find]) rfl rfl
      { operator_def := some noShapeDef } noShapeDef rfl rfl).2.2 rfl⟩

/-- Workspace holding the one declared input and the first declared output
of the C6/C7 scenario. -/
def wsBind : Workspace :=
  Workspace.mk [("in1", { dtype := DataType.DT_FLOAT }),
    ("outA", { dtype := DataType.DT_INT32 })]

/-- Two-output definition with consistent per-output declared types. -/
def bindDef : OperatorDef :=
  { type := "Op6", name := "o6", input := ["in1"],
    output := ["outA", "outB"],
    output_type := [DataType.DT_UINT8, DataType.DT_HALF],
    output_shape := [OutputShape.mk [1, 2]], arg := [] }

/-- Two-output definition with a non-zero, mismatched output-type count. -/
def bindDefBad : OperatorDef :=
  { bindDef with output_type := [DataType.DT_UINT8] }

/-- Definition whose second declared input has no workspace tensor. -/
def missingInDef : OperatorDef :=
  { bindDef with input := ["in1", "missing"] }

/-- Witness for C6: reuse/creation at a concrete workspace, and the fatal
mismatch branch at a concrete inconsistent definition. -/
theorem init_output_reuse_and_creation_witness :
    (∃ ws2 op2, (Operation.mk bindDef [] []).Init wsBind = .ok (ws2, op2) ∧
      (∀ n t, wsBind.getTensor n = some t →
        ∃ t2, ws2.getTensor n = some t2 ∧ t2.dtype = t.dtype) ∧
      (∀ j (hj : j < bindDef.output.length),
        wsBind.hasTensor (bindDef.output.get ⟨j, hj⟩) = false →
        ∃ t2, ws2.getTensor (bindDef.output.get ⟨j, hj⟩) = some t2 ∧
          t2.dtype = resolveOutputType bindDef j) ∧
      ws2.tensors.length = wsBind.tensors.length +
        (bindDef.output.filter (fun n => !wsBind.hasTensor n)).length) ∧
    (Operation.mk bindDefBad [] []).Init wsBind =
      .error "operator output size != operator output type size" :=
  ⟨(init_output_reuse_and_creation bindDef wsBind
      (Operation.mk bindDef [] []) rfl (by decide) (by decide)).1 (by decide),
   (init_output_reuse_and_creation bindDefBad wsBind
      (Operation.mk bindDefBad [] []) rfl (by decide) (by decide)).2
      (by decide) ⟨1, by decide, by decide⟩⟩

/-- Witness for C7: the fatal missing-input diagnostic at a concrete
workspace, and successful in-order binding when all inputs resolve. -/
theorem init_missing_input_fatality_witness :
    (Operation.mk missingInDef [] []).Init wsBind =
      .error ("op " ++ missingInDef.type ++
        ": Encountered a non-existing input tensor: " ++ "missing") ∧
    (∃ ts, bindInputs bindDef.type wsBind bindDef.input = .ok ts ∧
      List.Forall₂ (fun n t => wsBind.getTensor n = some t)
        bindDef.input ts ∧
      ∀ res, (Operation.mk bindDef [] []).Init wsBind = .ok res →
        res.2.inputs = ts) :=
  ⟨(init_missing_input_fatality missingInDef wsBind
      (Operation.mk missingInDef [] []) rfl).1 ["in1"] "missing" [] rfl
      (by decide) (by decide),
   (init_missing_input_fatality bindDef wsBind
      (Operation.mk bindDef [] []) rfl).2 (by decide)⟩
